import Mathlib

/-!
Verification of the deep-research control loop (`src/app.py`).

The program is a sequential, single-threaded research loop driven by replies
from an external completion service.  We embed the pure logic of each step:
string processing of replies, the JSON decoding done by `json.loads`, the
record extraction in `run_search`, the `"yes"` heuristic in `evaluate`, and
the session-state transition performed by one run of the research block in
`main` (lines 202-311).  External replies are supplied by an oracle
environment; everything here is executable.

Strings are modelled as `List Char` (`Str` below), matching Python's
sequence-of-characters view.
-/

abbrev Str := List Char

/-- Python `str.lower()` restricted to the ASCII range, which is all the code
compares against ("yes"). -/
def pyLower (s : Str) : Str := s.map Char.toLower

/-- Whitespace stripped by Python `str.strip()` with no argument
(ASCII fragment: space, tab, newline, carriage return, vertical tab,
form feed). -/
def pySpace (c : Char) : Bool :=
  c = ' ' || c = '\t' || c = '\n' || c = '\r' || c = '\x0b' || c = '\x0c'

/-- Python `str.strip()`: drop whitespace from both ends. -/
def pyStrip (s : Str) : Str :=
  ((s.dropWhile pySpace).reverse.dropWhile pySpace).reverse

/-- Python's `needle in hay` substring test. -/
def strContains (hay needle : Str) : Bool :=
  match hay with
  | [] => decide (needle = [])
  | _ :: t => strStartsWith hay needle || strContains t needle
where
  /-- Python `str.startswith`. -/
  strStartsWith : Str → Str → Bool
  | _, [] => true
  | [], _ :: _ => false
  | c :: cs, d :: ds => c = d && strStartsWith cs ds

/-- Python `s.split("\n")`: split on newline characters, keeping empty
pieces, with `"".split("\n") = [""]`. -/
def splitNl : Str → List Str
  | [] => [[]]
  | c :: rest =>
    if c = '\n' then [] :: splitNl rest
    else
      match splitNl rest with
      | [] => [[c]]
      | h :: t => (c :: h) :: t

/-- `evaluate` (app.py lines 113-125), applied to the extracted reply text:
`return "yes" in review.output[0].content[0].text.lower()`. -/
def evaluate (replyText : Str) : Bool :=
  strContains (pyLower replyText) ('y' :: 'e' :: 's' :: [])

/-- The reply-text processing of `get_clarifying_questions` (app.py lines
59-61): `questions = text.split("\n")` followed by
`[q.strip() for q in questions if q.strip()]`. -/
def get_clarifying_questions (replyText : Str) : List Str :=
  (splitNl replyText).filterMap (fun q =>
    if pyStrip q = [] then none else some (pyStrip q))

/-! ## JSON values and `json.loads` -/

/-- JSON values as produced by Python's `json.loads` (floats are outside the
model: every number the program's prompts deal in is integral). -/
inductive Json where
  | null : Json
  | bool (b : Bool) : Json
  | num (n : Int) : Json
  | str (s : Str) : Json
  | arr (elems : List Json) : Json
  | obj (fields : List (Str × Json)) : Json

mutual

/-- Decidable equality of JSON values (the derive handler does not support
this nested inductive). -/
def Json.decEq : (a b : Json) → Decidable (a = b)
  | Json.null, Json.null => isTrue rfl
  | Json.null, Json.bool _ => isFalse (fun h => Json.noConfusion h)
  | Json.null, Json.num _ => isFalse (fun h => Json.noConfusion h)
  | Json.null, Json.str _ => isFalse (fun h => Json.noConfusion h)
  | Json.null, Json.arr _ => isFalse (fun h => Json.noConfusion h)
  | Json.null, Json.obj _ => isFalse (fun h => Json.noConfusion h)
  | Json.bool _, Json.null => isFalse (fun h => Json.noConfusion h)
  | Json.bool a, Json.bool b =>
    if h : a = b then isTrue (by rw [h]) else isFalse (fun hh => h (by injection hh))
  | Json.bool _, Json.num _ => isFalse (fun h => Json.noConfusion h)
  | Json.bool _, Json.str _ => isFalse (fun h => Json.noConfusion h)
  | Json.bool _, Json.arr _ => isFalse (fun h => Json.noConfusion h)
  | Json.bool _, Json.obj _ => isFalse (fun h => Json.noConfusion h)
  | Json.num _, Json.null => isFalse (fun h => Json.noConfusion h)
  | Json.num _, Json.bool _ => isFalse (fun h => Json.noConfusion h)
  | Json.num a, Json.num b =>
    if h : a = b then isTrue (by rw [h]) else isFalse (fun hh => h (by injection hh))
  | Json.num _, Json.str _ => isFalse (fun h => Json.noConfusion h)
  | Json.num _, Json.arr _ => isFalse (fun h => Json.noConfusion h)
  | Json.num _, Json.obj _ => isFalse (fun h => Json.noConfusion h)
  | Json.str _, Json.null => isFalse (fun h => Json.noConfusion h)
  | Json.str _, Json.bool _ => isFalse (fun h => Json.noConfusion h)
  | Json.str _, Json.num _ => isFalse (fun h => Json.noConfusion h)
  | Json.str a, Json.str b =>
    if h : a = b then isTrue (by rw [h]) else isFalse (fun hh => h (by injection hh))
  | Json.str _, Json.arr _ => isFalse (fun h => Json.noConfusion h)
  | Json.str _, Json.obj _ => isFalse (fun h => Json.noConfusion h)
  | Json.arr _, Json.null => isFalse (fun h => Json.noConfusion h)
  | Json.arr _, Json.bool _ => isFalse (fun h => Json.noConfusion h)
  | Json.arr _, Json.num _ => isFalse (fun h => Json.noConfusion h)
  | Json.arr _, Json.str _ => isFalse (fun h => Json.noConfusion h)
  | Json.arr a, Json.arr b =>
    match Json.decEqList a b with
    | isTrue h => isTrue (by rw [h])
    | isFalse h => isFalse (fun hh => h (by injection hh))
  | Json.arr _, Json.obj _ => isFalse (fun h => Json.noConfusion h)
  | Json.obj _, Json.null => isFalse (fun h => Json.noConfusion h)
  | Json.obj _, Json.bool _ => isFalse (fun h => Json.noConfusion h)
  | Json.obj _, Json.num _ => isFalse (fun h => Json.noConfusion h)
  | Json.obj _, Json.str _ => isFalse (fun h => Json.noConfusion h)
  | Json.obj _, Json.arr _ => isFalse (fun h => Json.noConfusion h)
  | Json.obj a, Json.obj b =>
    match Json.decEqFields a b with
    | isTrue h => isTrue (by rw [h])
    | isFalse h => isFalse (fun hh => h (by injection hh))

def Json.decEqList : (a b : List Json) → Decidable (a = b)
  | [], [] => isTrue rfl
  | [], _ :: _ => isFalse (fun h => List.noConfusion h)
  | _ :: _, [] => isFalse (fun h => List.noConfusion h)
  | x :: xs, y :: ys =>
    match Json.decEq x y with
    | isFalse h => isFalse (fun hh => h (by injection hh))
    | isTrue h1 =>
      match Json.decEqList xs ys with
      | isTrue h2 => isTrue (by rw [h1, h2])
      | isFalse h2 => isFalse (fun hh => h2 (by injection hh))

def Json.decEqFields : (a b : List (Str × Json)) → Decidable (a = b)
  | [], [] => isTrue rfl
  | [], _ :: _ => isFalse (fun h => List.noConfusion h)
  | _ :: _, [] => isFalse (fun h => List.noConfusion h)
  | (k1, v1) :: xs, (k2, v2) :: ys =>
    if hk : k1 = k2 then
      match Json.decEq v1 v2 with
      | isFalse h => isFalse (fun hh => by
          injection hh with hh1 hh2
          exact h (congrArg Prod.snd hh1))
      | isTrue h1 =>
        match Json.decEqFields xs ys with
        | isTrue h2 => isTrue (by rw [hk, h1, h2])
        | isFalse h2 => isFalse (fun hh => h2 (by injection hh))
    else
      isFalse (fun hh => by
        injection hh with hh1 hh2
        exact hk (congrArg Prod.fst hh1))

end

instance : DecidableEq Json := Json.decEq

/-- Whitespace skipped between JSON tokens (exactly the four characters
Python's `json` module skips). -/
def jsonWs (c : Char) : Bool :=
  c = ' ' || c = '\t' || c = '\n' || c = '\r'

def skipWs (cs : Str) : Str := cs.dropWhile jsonWs

/-- Single-character JSON string escapes; `\uXXXX` is outside the model. -/
def escChar (c : Char) : Option Char :=
  if c = 'n' then some '\n'
  else if c = 't' then some '\t'
  else if c = 'r' then some '\r'
  else if c = 'b' then some '\x08'
  else if c = 'f' then some '\x0c'
  else if c = '"' || c = '\\' || c = '/' then some c
  else none

/-- Body of a JSON string literal, after the opening quote. -/
def parseStringBody : Str → Option (Str × Str)
  | [] => none
  | '"' :: rest => some ([], rest)
  | '\\' :: c :: rest =>
    (escChar c).bind fun ch =>
      (parseStringBody rest).map fun p => (ch :: p.1, p.2)
  | c :: rest => (parseStringBody rest).map fun p => (c :: p.1, p.2)

def parseDigits : Str → Nat → Nat × Str
  | c :: rest, acc =>
    if c.isDigit then parseDigits rest (acc * 10 + (c.toNat - 48))
    else (acc, c :: rest)
  | [], acc => (acc, [])

/-- A nonnegative integer literal; float and exponent forms are outside the
model and rejected. -/
def parseNatCore (cs : Str) : Option (Nat × Str) :=
  match cs with
  | c :: _ =>
    if c.isDigit then
      match parseDigits cs 0 with
      | (_, '.' :: _) => none
      | (_, 'e' :: _) => none
      | (_, 'E' :: _) => none
      | (n, rest) => some (n, rest)
    else none
  | [] => none

def parseNumber (cs : Str) : Option (Json × Str) :=
  match cs with
  | '-' :: rest => (parseNatCore rest).map fun p => (Json.num (-(p.1 : Int)), p.2)
  | _ => (parseNatCore cs).map fun p => (Json.num (p.1 : Int), p.2)

mutual

/-- One JSON value, fuel-indexed recursive descent. -/
def parseValue : Nat → Str → Option (Json × Str)
  | 0, _ => none
  | fuel + 1, cs =>
    match skipWs cs with
    | 'n' :: 'u' :: 'l' :: 'l' :: rest => some (Json.null, rest)
    | 't' :: 'r' :: 'u' :: 'e' :: rest => some (Json.bool true, rest)
    | 'f' :: 'a' :: 'l' :: 's' :: 'e' :: rest => some (Json.bool false, rest)
    | '"' :: rest => (parseStringBody rest).map fun p => (Json.str p.1, p.2)
    | '\x7b' :: rest =>
      (match skipWs rest with
       | '\x7d' :: rest2 => some (Json.obj [], rest2)
       | _ => (parseMembers fuel rest).map fun p => (Json.obj p.1, p.2))
    | '[' :: rest =>
      (match skipWs rest with
       | ']' :: rest2 => some (Json.arr [], rest2)
       | _ => (parseElems fuel rest).map fun p => (Json.arr p.1, p.2))
    | rest => parseNumber rest

/-- Comma-separated array elements up to the closing bracket. -/
def parseElems : Nat → Str → Option (List Json × Str)
  | 0, _ => none
  | fuel + 1, cs =>
    (parseValue fuel cs).bind fun p =>
      match skipWs p.2 with
      | ',' :: rest => (parseElems fuel rest).map fun q => (p.1 :: q.1, q.2)
      | ']' :: rest => some ([p.1], rest)
      | _ => none

/-- Comma-separated `"key": value` members up to the closing brace. -/
def parseMembers : Nat → Str → Option (List (Str × Json) × Str)
  | 0, _ => none
  | fuel + 1, cs =>
    match skipWs cs with
    | '"' :: rest =>
      (parseStringBody rest).bind fun k =>
        match skipWs k.2 with
        | ':' :: rest2 =>
          (parseValue fuel rest2).bind fun v =>
            match skipWs v.2 with
            | ',' :: rest3 => (parseMembers fuel rest3).map fun q => ((k.1, v.1) :: q.1, q.2)
            | '\x7d' :: rest3 => some ([(k.1, v.1)], rest3)
            | _ => none
        | _ => none
    | _ => none

end

/-- Python `json.loads`: parse one value, reject trailing data; `none`
models a raised `json.JSONDecodeError`. -/
def json_loads (cs : Str) : Option Json :=
  match parseValue (cs.length + 1) cs with
  | some (v, rest) => if skipWs rest = [] then some v else none
  | none => none

/-- Python `d[k]` on a decoded JSON object: the last binding of the key wins,
as in `dict` built by `json.loads`; `none` models a raised `KeyError` /
`TypeError`. -/
def Json.lookup : Json → Str → Option Json
  | Json.obj fields, k =>
    fields.foldl (fun acc p => if p.1 = k then some p.2 else acc) none
  | _, _ => none

/-! ## The completion-service response shape and `run_search` -/

/-- One content block of a response output item (`.text`). -/
structure ContentBlock where
  text : Str
deriving DecidableEq

/-- One output item of a completion-service response (`.id`, `.content`). -/
structure OutputItem where
  id : Str
  content : List ContentBlock
deriving DecidableEq

/-- A completion-service response (`.output`). -/
structure Response where
  output : List OutputItem
deriving DecidableEq

/-- The collected-result record built by `run_search` (app.py lines 108-110):
the Python dict literal has exactly the keys `query`, `resp_id`,
`research_output`. The query slot holds whatever value was searched (after a
re-plan it may be any JSON value, not only a string). -/
structure SearchResult where
  query : Json
  resp_id : Str
  research_output : Str
deriving DecidableEq

/-- `run_search` (app.py lines 99-110) applied to the response of the
web-search call: builds
`{'query': q, 'resp_id': web_search.output[1].id,
  'research_output': web_search.output[1].content[0].text}`.
`none` models the unhandled `IndexError` when the response has fewer than
two output items or the second item has no content block. -/
def run_search (q : Json) (web_search : Response) : Option SearchResult :=
  match web_search.output.get? 1 with
  | none => none
  | some item =>
    match item.content.get? 0 with
    | none => none
    | some block => some ⟨q, item.id, block.text⟩

/-! ## Plan parsing and the two plan call sites -/

/-- The reply parsing of `get_goal_and_queries` (app.py line 95):
`plan = json.loads(goal_and_queries.output[0].content[0].text)`.
`none` models the raised `json.JSONDecodeError`, which this function does
not catch. -/
def get_goal_and_queries (replyText : Str) : Option Json :=
  json_loads replyText

/-- Outcome of the initial-plan call site in `main` (app.py line 181). -/
inductive PlanOutcome where
  | ok (plan : Json) : PlanOutcome
  | sessionCrash : PlanOutcome
deriving DecidableEq

/-- The initial-plan call site (app.py line 181): `get_goal_and_queries` is
invoked with no surrounding `try`, so a decode error propagates and the
session fails. -/
def initialPlanOutcome (replyText : Str) : PlanOutcome :=
  match get_goal_and_queries replyText with
  | some plan => PlanOutcome.ok plan
  | none => PlanOutcome.sessionCrash

/-- The re-plan parsing in `main` (app.py lines 289-299): inside
`try ... except json.JSONDecodeError`, `new_queries = json.loads(text)`;
only `if isinstance(new_queries, list)` replaces
`st.session_state['current_queries']`, otherwise (and on decode error)
`st.error(...)` is shown and the query set is untouched.  Returns the new
query set and whether an error was reported. -/
def replanUpdate (parsed : Option Json) (current_queries : List Json) :
    List Json × Bool :=
  match parsed with
  | some (Json.arr new_queries) => (new_queries, false)
  | some _ => (current_queries, true)
  | none => (current_queries, true)

/-! ## The research-loop state machine (`main`, app.py lines 202-311) -/

/-- The session state the research block reads and writes
(`research_started`, `collected`, `current_queries`, `iteration_count`). -/
structure SessionState where
  research_started : Bool
  collected : List SearchResult
  current_queries : List Json
  iteration_count : Nat
deriving DecidableEq

/-- Oracle for one run of the research block: the external replies it
consumes (a web-search response per query, the extracted evaluation reply
text, the extracted re-plan reply text). -/
structure Env where
  searchResp : Json → Response
  evalReply : Str
  replanReply : Str

/-- The search loop of one iteration (app.py lines 220-228): for each query
in order, skip it when `any(item['query'] == q for item in collected)`,
otherwise append `run_search`'s record.  `none` models an unhandled fault
inside `run_search`. -/
def searchPhase (env : Env) : List Json → List SearchResult →
    Option (List SearchResult)
  | [], collected => some collected
  | q :: rest, collected =>
    if collected.any (fun item => decide (item.query = q)) then
      searchPhase env rest collected
    else
      match run_search q (env.searchResp q) with
      | none => none
      | some result => searchPhase env rest (collected ++ [result])

/-- One pass body up to the counter update (app.py lines 213-237): run the
searches, store `collected`, set `iteration_count = iteration_count + 1`
(line 203 has already set `research_started = True`). -/
def runPass (env : Env) (s : SessionState) : Option SessionState :=
  match searchPhase env s.current_queries s.collected with
  | none => none
  | some collected =>
    some { s with research_started := true
                  collected := collected
                  iteration_count := s.iteration_count + 1 }

/-- The evaluation branch (app.py lines 239-299): on a satisfied evaluation
the report is synthesized and the research state is reset (lines 263-266);
otherwise the re-plan reply is parsed and `current_queries` updated per
`replanUpdate`. -/
def afterEval (env : Env) (s : SessionState) : SessionState :=
  if evaluate env.evalReply then
    { s with research_started := false
             collected := []
             iteration_count := 0 }
  else
    { s with current_queries :=
        (replanUpdate (json_loads env.replanReply) s.current_queries).1 }

/-- One run of the research block (app.py lines 202-311): when
`iteration_count < max_iterations` (5) a pass runs followed by the
evaluation branch; at the cap the block only displays the collected
results, changing nothing but `research_started`. -/
def step (env : Env) (s : SessionState) : Option SessionState :=
  if s.iteration_count < 5 then
    match runPass env s with
    | none => none
    | some s1 => some (afterEval env s1)
  else
    some { s with research_started := true }

/-- Session state before the first click: `st.session_state.get` defaults
(app.py lines 206-208) with the plan's queries. -/
def initState (queries : List Json) : SessionState :=
  { research_started := false
    collected := []
    current_queries := queries
    iteration_count := 0 }

/-- Repeated runs of the research block from a state. -/
def runFrom (s : SessionState) : List Env → Option SessionState
  | [] => some s
  | env :: envs =>
    match step env s with
    | none => none
    | some s1 => runFrom s1 envs

/-- Repeated runs of the research block from the initial state. -/
def runTrace (queries : List Json) (envs : List Env) : Option SessionState :=
  runFrom (initState queries) envs

/-! ## Report filename (app.py line 259) -/

/-- Python `s.replace(old, new)` for single-character patterns, as used in
`topic.replace(' ', '_')`. -/
def pyReplaceChar (s : Str) (old new : Char) : Str :=
  s.map fun c => if c = old then new else c

/-- The download filename (app.py line 259):
`f"research_report_{topic.replace(' ', '_')}.md"`. -/
def reportFileName (topic : Str) : Str :=
  "research_report_".data ++ pyReplaceChar topic ' ' '_' ++ ".md".data

/-! ## Concrete data used to exercise the definitions -/

/-- Join lines with newline separators (inverse image for `splitNl`). -/
def joinNl : List Str → Str
  | [] => []
  | [l] => l
  | l :: l2 :: ls => l ++ '\n' :: joinNl (l2 :: ls)

/-- An environment whose external replies are all trivial. -/
def envNoop : Env :=
  { searchResp := fun _ => { output := [] }
    evalReply := []
    replanReply := [] }

/-- A well-formed web-search response: two output items, the second with one
content block. -/
def respOk : Response :=
  { output := [ { id := "i0".data, content := [] },
                { id := "i1".data, content := [ { text := "out".data } ] } ] }

/-- An environment that always returns `respOk`, evaluates to satisfied, and
re-plans with a non-list reply. -/
def envYes : Env :=
  { searchResp := fun _ => respOk
    evalReply := "Yes.".data
    replanReply := "1".data }

/-- An environment that always returns `respOk` and evaluates to not
satisfied, with a non-JSON re-plan reply. -/
def envNo : Env :=
  { searchResp := fun _ => respOk
    evalReply := "No, insufficient.".data
    replanReply := "not json".data }

/-! ## String lemmas -/

theorem strStartsWith_iff (needle hay : Str) :
    strContains.strStartsWith hay needle = true ↔ ∃ r, hay = needle ++ r := by
  induction needle generalizing hay with
  | nil =>
    simp [strContains.strStartsWith]
  | cons d ds ih =>
    cases hay with
    | nil =>
      simp [strContains.strStartsWith]
    | cons c cs =>
      simp only [strContains.strStartsWith, Bool.and_eq_true, decide_eq_true_eq, ih,
        List.cons_append, List.cons.injEq]
      constructor
      · rintro ⟨hcd, r, hr⟩
        exact ⟨r, hcd, hr⟩
      · rintro ⟨r, hcd, hr⟩
        exact ⟨hcd, r, hr⟩

theorem strContains_iff (hay needle : Str) :
    strContains hay needle = true ↔ ∃ l r, hay = l ++ needle ++ r := by
  induction hay with
  | nil =>
    simp only [strContains, decide_eq_true_eq]
    constructor
    · rintro rfl
      exact ⟨[], [], rfl⟩
    · rintro ⟨l, r, hr⟩
      rcases List.append_eq_nil.mp (Eq.symm hr) with ⟨h1, h2⟩
      rcases List.append_eq_nil.mp h1 with ⟨_, h3⟩
      exact h3
  | cons c t ih =>
    simp only [strContains, Bool.or_eq_true, strStartsWith_iff, ih]
    constructor
    · rintro (⟨r, hr⟩ | ⟨l, r, hr⟩)
      · exact ⟨[], r, by simpa using hr⟩
      · exact ⟨c :: l, r, by simp [hr]⟩
    · rintro ⟨l, r, hr⟩
      cases l with
      | nil =>
        exact Or.inl ⟨r, by simpa using hr⟩
      | cons x l' =>
        right
        refine ⟨l', r, ?_⟩
        simpa using congrArg List.tail hr

theorem splitNl_append (l rest : Str) (h : '\n' ∉ l) :
    splitNl (l ++ '\n' :: rest) = l :: splitNl rest := by
  induction l with
  | nil => simp [splitNl]
  | cons c l' ih =>
    have hc : c ≠ '\n' := fun hc => h (hc ▸ List.mem_cons_self _ _)
    have h' : '\n' ∉ l' := fun hm => h (List.mem_cons_of_mem _ hm)
    simp only [List.cons_append, splitNl, if_neg hc]
    rw [List.append_eq, ih h']

theorem splitNl_no_nl (l : Str) (h : '\n' ∉ l) : splitNl l = [l] := by
  induction l with
  | nil => rfl
  | cons c l' ih =>
    have hc : c ≠ '\n' := fun hc => h (hc ▸ List.mem_cons_self _ _)
    have h' : '\n' ∉ l' := fun hm => h (List.mem_cons_of_mem _ hm)
    simp only [splitNl, if_neg hc, ih h']

theorem splitNl_joinNl (lines : List Str) (hne : lines ≠ [])
    (h : ∀ l ∈ lines, '\n' ∉ l) :
    splitNl (joinNl lines) = lines := by
  induction lines with
  | nil => exact absurd rfl hne
  | cons l ls ih =>
    cases ls with
    | nil =>
      exact splitNl_no_nl l (h l (List.mem_cons_self _ _))
    | cons l2 ls' =>
      have h1 : '\n' ∉ l := h l (List.mem_cons_self _ _)
      have h2 : ∀ x ∈ l2 :: ls', '\n' ∉ x := fun x hx => h x (List.mem_cons_of_mem _ hx)
      simp only [joinNl, splitNl_append l _ h1, ih (by simp) h2]

theorem filterMap_strip_of_nonempty (lines : List Str)
    (h : ∀ l ∈ lines, pyStrip l ≠ []) :
    (lines.filterMap (fun q => if pyStrip q = [] then none else some (pyStrip q)))
      = lines.map pyStrip := by
  induction lines with
  | nil => rfl
  | cons l ls ih =>
    have h1 : pyStrip l ≠ [] := h l (List.mem_cons_self _ _)
    have h2 : ∀ x ∈ ls, pyStrip x ≠ [] := fun x hx => h x (List.mem_cons_of_mem _ hx)
    simp only [List.filterMap_cons, if_neg h1, List.map_cons, ih h2]

/-! ## Claim theorems -/

/-- Claim C3: completeness evaluation returns true exactly when the
lowercased reply text contains the substring "yes" anywhere; it returns
true for the reply "Yes." and false for the reply "No, insufficient.", and
any reply without that substring is treated as not satisfied. -/
theorem evaluate_yes_heuristic :
    (∀ t : Str, evaluate t = true ↔
      ∃ l r, pyLower t = l ++ ('y' :: 'e' :: 's' :: []) ++ r)
    ∧ evaluate ("Yes.".data) = true
    ∧ evaluate ("No, insufficient.".data) = false
    ∧ (∀ t : Str,
        strContains (pyLower t) ('y' :: 'e' :: 's' :: []) = false →
        evaluate t = false) := by
  refine ⟨fun t => ?_, by decide, by decide, fun t h => h⟩
  exact strContains_iff (pyLower t) ('y' :: 'e' :: 's' :: [])

/-- Witness for C3 at a concrete reply with no "yes" substring. -/
theorem evaluate_yes_heuristic_witness :
    evaluate ("It is complete.".data) = false :=
  evaluate_yes_heuristic.2.2.2 ("It is complete.".data) (by decide)

/-- Counterexample to C6 as stated: the reply "a\nb\nc\nd\n " consists of 5
newline-separated lines, each non-empty as a string, yet the resulting
question list has 4 entries, because the whitespace-only fifth line strips
to empty and is discarded. -/
theorem get_clarifying_questions_blank_line :
    splitNl ("a\nb\nc\nd\n ".data) =
      ["a".data, "b".data, "c".data, "d".data, " ".data]
    ∧ (splitNl ("a\nb\nc\nd\n ".data)).length = 5
    ∧ (∀ l ∈ splitNl ("a\nb\nc\nd\n ".data), l ≠ [])
    ∧ get_clarifying_questions ("a\nb\nc\nd\n ".data) =
        ["a".data, "b".data, "c".data, "d".data]
    ∧ (get_clarifying_questions ("a\nb\nc\nd\n ".data)).length = 4 := by
  decide

/-- Claim C6 (amended): question generation splits the raw response on
newlines, strips each line, and discards lines that are empty after
stripping; for a reply of 5 newline-separated lines each containing a
non-whitespace character, the question list has exactly 5 non-empty
entries (the stripped lines) in the original order.  No check enforces
that exactly 5 questions were returned. -/
theorem get_clarifying_questions_five_lines :
    ∀ lines : List Str, lines.length = 5 →
      (∀ l ∈ lines, '\n' ∉ l ∧ pyStrip l ≠ []) →
      get_clarifying_questions (joinNl lines) = lines.map pyStrip
      ∧ (get_clarifying_questions (joinNl lines)).length = 5
      ∧ (∀ q ∈ get_clarifying_questions (joinNl lines), q ≠ []) := by
  intro lines h5 hl
  have hne : lines ≠ [] := by
    intro h
    rw [h] at h5
    exact absurd h5 (by decide)
  have hnl : ∀ l ∈ lines, '\n' ∉ l := fun l hm => (hl l hm).1
  have hs : ∀ l ∈ lines, pyStrip l ≠ [] := fun l hm => (hl l hm).2
  have hmain : get_clarifying_questions (joinNl lines) = lines.map pyStrip := by
    unfold get_clarifying_questions
    rw [splitNl_joinNl lines hne hnl, filterMap_strip_of_nonempty lines hs]
  refine ⟨hmain, ?_, ?_⟩
  · rw [hmain, List.length_map, h5]
  · intro q hq
    rw [hmain] at hq
    rcases List.mem_map.mp hq with ⟨l, hlm, rfl⟩
    exact hs l hlm

/-- Witness for the amended C6 at a concrete 5-line reply. -/
theorem get_clarifying_questions_five_lines_witness :
    get_clarifying_questions
        (joinNl ["1. Q1".data, " 2. Q2".data, "3. Q3".data,
                 "4. Q4".data, "5. Q5 ".data]) =
      ["1. Q1".data, "2. Q2".data, "3. Q3".data, "4. Q4".data, "5. Q5".data] := by
  have h := get_clarifying_questions_five_lines
    ["1. Q1".data, " 2. Q2".data, "3. Q3".data, "4. Q4".data, "5. Q5 ".data]
    (by decide) (by decide)
  rw [h.1]
  decide

/-- Claim C7: plan generation decodes the reply with a strict JSON parse;
for the reply attached below, the parsed goal is "G" and the parsed query
list preserves the order and count of the reply's "queries" array, while a
malformed reply decodes to nothing (the error propagates, no recovery). -/
theorem get_goal_and_queries_plan :
    (get_goal_and_queries
        ("\x7b\"goal\":\"G\",\"queries\":[\"a\",\"b\",\"c\",\"d\",\"e\"]\x7d".data)).bind
        (fun plan => plan.lookup ("goal".data)) = some (Json.str ("G".data))
    ∧ (get_goal_and_queries
        ("\x7b\"goal\":\"G\",\"queries\":[\"a\",\"b\",\"c\",\"d\",\"e\"]\x7d".data)).bind
        (fun plan => plan.lookup ("queries".data)) =
        some (Json.arr [Json.str ("a".data), Json.str ("b".data),
                        Json.str ("c".data), Json.str ("d".data),
                        Json.str ("e".data)])
    ∧ get_goal_and_queries
        ("\x7b\"goal\":\"G\",\"queries\":[\"a\",\"b\",\"c\",\"d\",\"e\"]".data) = none := by
  decide

theorem run_search_query_eq (q : Json) (resp : Response) (r : SearchResult)
    (h : run_search q resp = some r) : r.query = q := by
  unfold run_search at h
  split at h
  · exact Option.noConfusion h
  · split at h
    · exact Option.noConfusion h
    · injection h with h
      rw [← h]

theorem step_of_runPass (env : Env) (s s1 : SessionState)
    (hlt : s.iteration_count < 5) (hrp : runPass env s = some s1) :
    step env s = some (afterEval env s1) := by
  unfold step
  rw [if_pos hlt, hrp]

theorem afterEval_sat (env : Env) (s1 : SessionState)
    (hev : evaluate env.evalReply = true) :
    afterEval env s1 = { s1 with research_started := false
                                 collected := []
                                 iteration_count := 0 } := by
  unfold afterEval
  rw [hev]
  rfl

theorem afterEval_unsat (env : Env) (s1 : SessionState)
    (hev : evaluate env.evalReply = false) :
    afterEval env s1 = { s1 with current_queries :=
        (replanUpdate (json_loads env.replanReply) s1.current_queries).1 } := by
  unfold afterEval
  rw [hev]
  rfl

/-- Claim C8: search execution takes the second output item's first content
block as the result text and that same item's identifier; a response with
fewer than two output items, or whose second item has no content block, is
an unhandled fault (`none`) with no fallback. -/
theorem run_search_shape :
    ∀ (q : Json) (resp : Response),
      (resp.output.length < 2 → run_search q resp = none)
      ∧ (∀ item0 item rest, resp.output = item0 :: item :: rest →
          (item.content = [] → run_search q resp = none)
          ∧ (∀ block blocks, item.content = block :: blocks →
              run_search q resp = some ⟨q, item.id, block.text⟩)) := by
  intro q resp
  constructor
  · intro hlen
    have hget : resp.output.get? 1 = none := by
      rw [List.get?_eq_none]
      omega
    unfold run_search
    rw [hget]
  · intro item0 item rest hout
    have hget : resp.output.get? 1 = some item := by rw [hout]; rfl
    have hc0 : ∀ v : Option ContentBlock, item.content.get? 0 = v →
        run_search q resp =
          (v.map fun block => SearchResult.mk q item.id block.text) := by
      intro v hv
      unfold run_search
      rw [hget]
      show (match item.content.get? 0 with
            | none => none
            | some block => some (SearchResult.mk q item.id block.text)) = _
      rw [hv]
      cases v <;> rfl
    constructor
    · intro hc
      rw [hc0 none (by rw [hc]; rfl)]
      rfl
    · intro block blocks hcb
      rw [hc0 (some block) (by rw [hcb]; rfl)]
      rfl

/-- Witness for C8: a response with no output items is an unhandled fault. -/
theorem run_search_shape_witness :
    run_search Json.null { output := [] } = none :=
  (run_search_shape Json.null { output := [] }).1 (by decide)

/-- Claim C9: every successful `run_search` result is exactly the
three-field record `⟨query, resp_id, research_output⟩` and its query field
is the searched value unchanged. -/
theorem run_search_record :
    ∀ (q : Json) (resp : Response) (r : SearchResult),
      run_search q resp = some r →
      r.query = q ∧ r = SearchResult.mk q r.resp_id r.research_output := by
  intro q resp r h
  have hq := run_search_query_eq q resp r h
  exact ⟨hq, by rw [← hq]⟩

/-- Witness for C9 at a concrete well-formed response. -/
theorem run_search_record_witness :
    (SearchResult.mk (Json.str ("q".data)) ("i1".data) ("out".data)).query
      = Json.str ("q".data) :=
  (run_search_record (Json.str ("q".data)) respOk
    (SearchResult.mk (Json.str ("q".data)) ("i1".data) ("out".data))
    (by decide)).1

/-- Claim C4: malformed JSON is handled asymmetrically: a re-plan reply that
fails decoding is caught (error reported, query set kept, the loop step
still returns a state rather than crashing), while a malformed initial-plan
reply is uncaught and the session fails. -/
theorem plan_error_asymmetry :
    ∀ t : Str, json_loads t = none →
      initialPlanOutcome t = PlanOutcome.sessionCrash
      ∧ (∀ cur, replanUpdate (json_loads t) cur = (cur, true))
      ∧ (∀ (env : Env) (s s1 : SessionState),
          env.replanReply = t →
          s.iteration_count < 5 →
          runPass env s = some s1 →
          evaluate env.evalReply = false →
          step env s = some s1) := by
  intro t ht
  refine ⟨?_, ?_, ?_⟩
  · unfold initialPlanOutcome get_goal_and_queries
    rw [ht]
  · intro cur
    rw [ht]
    rfl
  · intro env s s1 hrep hlt hrp hev
    rw [step_of_runPass env s s1 hlt hrp, afterEval_unsat env s1 hev, hrep, ht]
    rfl

/-- Witness for C4: a non-JSON reply crashes the initial-plan path. -/
theorem plan_error_asymmetry_witness :
    initialPlanOutcome ("not json".data) = PlanOutcome.sessionCrash :=
  (plan_error_asymmetry ("not json".data) (by decide)).1

/-- Claim C5: a re-plan reply that decodes to a non-list value is rejected
with a reported error and the active query set is unchanged; only a decoded
list replaces the query set (also shown at the `step` level). -/
theorem replan_non_list_atomicity :
    ∀ (t : Str) (j : Json) (cur : List Json),
      json_loads t = some j →
      ((∀ xs, j ≠ Json.arr xs) → replanUpdate (json_loads t) cur = (cur, true))
      ∧ (∀ xs, j = Json.arr xs → replanUpdate (json_loads t) cur = (xs, false))
      ∧ (∀ (env : Env) (s s1 : SessionState),
          env.replanReply = t →
          s.iteration_count < 5 →
          runPass env s = some s1 →
          evaluate env.evalReply = false →
          ((∀ xs, j ≠ Json.arr xs) → step env s = some s1)
          ∧ (∀ xs, j = Json.arr xs →
              step env s = some { s1 with current_queries := xs })) := by
  intro t j cur ht
  have hupd : ∀ (cur' : List Json), (∀ xs, j ≠ Json.arr xs) →
      replanUpdate (json_loads t) cur' = (cur', true) := by
    intro cur' hna
    rw [ht]
    cases j with
    | arr xs => exact absurd rfl (hna xs)
    | null => rfl
    | bool b => rfl
    | num n => rfl
    | str s => rfl
    | obj fields => rfl
  refine ⟨hupd cur, ?_, ?_⟩
  · rintro xs rfl
    rw [ht]
    rfl
  · intro env s s1 hrep hlt hrp hev
    constructor
    · intro hna
      rw [step_of_runPass env s s1 hlt hrp, afterEval_unsat env s1 hev, hrep,
        hupd s1.current_queries hna]
    · rintro xs rfl
      rw [step_of_runPass env s s1 hlt hrp, afterEval_unsat env s1 hev, hrep, ht]
      rfl

/-- Witness for C5: the valid-JSON non-list reply "1" leaves a concrete
query set untouched with an error reported. -/
theorem replan_non_list_atomicity_witness :
    replanUpdate (json_loads ("1".data)) [Json.str ("q".data)]
      = ([Json.str ("q".data)], true) :=
  (replan_non_list_atomicity ("1".data) (Json.num 1) [Json.str ("q".data)]
    (by decide)).1 (fun xs h => Json.noConfusion h)

theorem runPass_count (env : Env) (s s1 : SessionState)
    (h : runPass env s = some s1) :
    s1.iteration_count = s.iteration_count + 1 := by
  unfold runPass at h
  split at h
  · exact Option.noConfusion h
  · injection h with h
    rw [← h]

theorem step_count_le (env : Env) (s s' : SessionState)
    (hle : s.iteration_count ≤ 5) (h : step env s = some s') :
    s'.iteration_count ≤ 5 := by
  unfold step at h
  by_cases hlt : s.iteration_count < 5
  · rw [if_pos hlt] at h
    cases hrp : runPass env s with
    | none => rw [hrp] at h; exact Option.noConfusion h
    | some s1 =>
      rw [hrp] at h
      injection h with h
      have hc := runPass_count env s s1 hrp
      rw [← h]
      unfold afterEval
      by_cases hev : evaluate env.evalReply = true
      · rw [if_pos hev]
        exact Nat.zero_le 5
      · rw [if_neg hev]
        show s1.iteration_count ≤ 5
        omega
  · rw [if_neg hlt] at h
    injection h with h
    rw [← h]
    exact hle

theorem runFrom_count :
    ∀ (envs : List Env) (s s' : SessionState),
      s.iteration_count ≤ 5 → runFrom s envs = some s' →
      s'.iteration_count ≤ 5 := by
  intro envs
  induction envs with
  | nil =>
    intro s s' hle h
    injection h with h
    rw [← h]
    exact hle
  | cons e es ih =>
    intro s s' hle h
    unfold runFrom at h
    cases hst : step e s with
    | none => rw [hst] at h; exact Option.noConfusion h
    | some s1 =>
      rw [hst] at h
      exact ih s1 s' (step_count_le e s s1 hle hst) h

/-- Claim C1: each pass through the research loop increments the iteration
counter by exactly one, a pass only runs when the counter is strictly below
5 (at the cap the block leaves the state untouched apart from the started
flag and reports without an error), one run of the block preserves the
counter bound, and along every trace from the initial state the counter
never exceeds 5. -/
theorem iteration_counter_capped :
    ∀ (env : Env) (s : SessionState),
      (∀ s1, runPass env s = some s1 →
        s1.iteration_count = s.iteration_count + 1)
      ∧ (¬ s.iteration_count < 5 →
        step env s = some { s with research_started := true })
      ∧ (∀ s', s.iteration_count ≤ 5 → step env s = some s' →
        s'.iteration_count ≤ 5)
      ∧ (∀ (queries : List Json) (envs : List Env) (s' : SessionState),
          runTrace queries envs = some s' → s'.iteration_count ≤ 5) := by
  intro env s
  refine ⟨fun s1 => runPass_count env s s1, fun hge => ?_,
    fun s' => step_count_le env s s',
    fun queries envs s' h =>
      runFrom_count envs (initState queries) s' (Nat.zero_le 5) h⟩
  unfold step
  rw [if_neg hge]

/-- Witness for C1: at the cap the block returns the state unchanged apart
from the started flag, with no searches and no error. -/
theorem iteration_counter_capped_witness :
    step envNoop (SessionState.mk false [] [] 5) =
      some (SessionState.mk true [] [] 5) :=
  (iteration_counter_capped envNoop (SessionState.mk false [] [] 5)).2.1
    (by decide)

theorem any_query_eq_false (col : List SearchResult) (q : Json)
    (h : col.any (fun item => decide (item.query = q)) = false) :
    q ∉ col.map SearchResult.query := by
  intro hmem
  rcases List.mem_map.mp hmem with ⟨item, hitem, hq⟩
  have hT : col.any (fun item => decide (item.query = q)) = true :=
    List.any_eq_true.mpr ⟨item, hitem, decide_eq_true hq⟩
  rw [h] at hT
  exact Bool.noConfusion hT

theorem searchPhase_nodup (env : Env) :
    ∀ (qs : List Json) (col col' : List SearchResult),
      (col.map SearchResult.query).Nodup →
      searchPhase env qs col = some col' →
      (col'.map SearchResult.query).Nodup := by
  intro qs
  induction qs with
  | nil =>
    intro col col' hnd h
    injection h with h
    rw [← h]
    exact hnd
  | cons q rest ih =>
    intro col col' hnd h
    unfold searchPhase at h
    split at h
    · exact ih col col' hnd h
    · rename_i hany
      split at h
      · exact Option.noConfusion h
      · rename_i result hrs
        refine ih (col ++ [result]) col' ?_ h
        have hq : result.query = q :=
          run_search_query_eq q (env.searchResp q) result hrs
        have hanyF : col.any (fun item => decide (item.query = q)) = false := by
          revert hany
          cases col.any (fun item => decide (item.query = q)) <;> simp
        have hnotin : q ∉ col.map SearchResult.query :=
          any_query_eq_false col q hanyF
        rw [List.map_append, List.nodup_append]
        refine ⟨hnd, List.nodup_singleton _, ?_⟩
        intro x hx hx1
        simp only [List.map_cons, List.map_nil, List.mem_singleton] at hx1
        rw [hx1, hq] at hx
        exact hnotin hx

theorem searchPhase_skip (env : Env) (q : Json) (col : List SearchResult)
    (h : col.any (fun item => decide (item.query = q)) = true) :
    searchPhase env [q] col = some col := by
  unfold searchPhase
  rw [if_pos h]
  rfl

theorem step_nodup (env : Env) (s s' : SessionState)
    (hnd : (s.collected.map SearchResult.query).Nodup)
    (h : step env s = some s') :
    (s'.collected.map SearchResult.query).Nodup := by
  unfold step at h
  by_cases hlt : s.iteration_count < 5
  · rw [if_pos hlt] at h
    cases hrp : runPass env s with
    | none => rw [hrp] at h; exact Option.noConfusion h
    | some s1 =>
      rw [hrp] at h
      injection h with h
      have hs1 : (s1.collected.map SearchResult.query).Nodup := by
        unfold runPass at hrp
        split at hrp
        · exact Option.noConfusion hrp
        · rename_i col hsp
          injection hrp with hrp
          rw [← hrp]
          exact searchPhase_nodup env s.current_queries s.collected col hnd hsp
      rw [← h]
      unfold afterEval
      by_cases hev : evaluate env.evalReply = true
      · rw [if_pos hev]
        exact List.nodup_nil
      · rw [if_neg hev]
        exact hs1
  · rw [if_neg hlt] at h
    injection h with h
    rw [← h]
    exact hnd

theorem runFrom_nodup :
    ∀ (envs : List Env) (s s' : SessionState),
      (s.collected.map SearchResult.query).Nodup →
      runFrom s envs = some s' →
      (s'.collected.map SearchResult.query).Nodup := by
  intro envs
  induction envs with
  | nil =>
    intro s s' hnd h
    injection h with h
    rw [← h]
    exact hnd
  | cons e es ih =>
    intro s s' hnd h
    unfold runFrom at h
    cases hst : step e s with
    | none => rw [hst] at h; exact Option.noConfusion h
    | some s1 =>
      rw [hst] at h
      exact ih s1 s' (step_nodup e s s1 hnd hst) h

/-- Claim C2: the collected list stays de-duplicated by query: the search
phase preserves distinctness of the query fields, a query already present
is skipped (the phase leaves the list unchanged), and along every trace
from the initial state the collected query fields are pairwise distinct, so
no second entry with the same query is ever appended. -/
theorem collected_query_dedup :
    ∀ (env : Env) (qs : List Json) (col col' : List SearchResult),
      ((col.map SearchResult.query).Nodup →
        searchPhase env qs col = some col' →
        (col'.map SearchResult.query).Nodup)
      ∧ (∀ q : Json, col.any (fun item => decide (item.query = q)) = true →
          searchPhase env [q] col = some col)
      ∧ (∀ (queries : List Json) (envs : List Env) (s : SessionState),
          runTrace queries envs = some s →
          (s.collected.map SearchResult.query).Nodup) := by
  intro env qs col col'
  exact ⟨searchPhase_nodup env qs col col',
    fun q h => searchPhase_skip env q col h,
    fun queries envs s h =>
      runFrom_nodup envs (initState queries) s List.nodup_nil h⟩

/-- Witness for C2: a query already collected is skipped, not re-searched. -/
theorem collected_query_dedup_witness :
    searchPhase envNoop [Json.str ("q".data)]
        [SearchResult.mk (Json.str ("q".data)) ("i".data) ("t".data)] =
      some [SearchResult.mk (Json.str ("q".data)) ("i".data) ("t".data)] :=
  (collected_query_dedup envNoop [Json.str ("q".data)]
    [SearchResult.mk (Json.str ("q".data)) ("i".data) ("t".data)]
    [SearchResult.mk (Json.str ("q".data)) ("i".data) ("t".data)]).2.1
    (Json.str ("q".data)) (by decide)

/-- Claim C10: after a satisfied evaluation and synthesis the research state
is reset (started flag false, collected list empty, counter 0), and the
download filename is the topic with only space characters replaced by
underscores, every other character passing through unchanged at its
position. -/
theorem satisfied_branch_resets :
    ∀ (env : Env) (s s1 : SessionState),
      s.iteration_count < 5 →
      runPass env s = some s1 →
      evaluate env.evalReply = true →
      (step env s = some { s1 with research_started := false
                                   collected := []
                                   iteration_count := 0 })
      ∧ (∀ topic : Str, reportFileName topic =
          "research_report_".data ++
            (topic.map fun c => if c = ' ' then '_' else c) ++ ".md".data)
      ∧ (∀ (topic : Str) (n : Nat),
          (pyReplaceChar topic ' ' '_').get? n =
            (topic.get? n).map fun c => if c = ' ' then '_' else c)
      ∧ pyReplaceChar ("a b/c:d*?".data) ' ' '_' = "a_b/c:d*?".data := by
  intro env s s1 hlt hrp hev
  refine ⟨?_, fun topic => rfl, fun topic n => ?_, by decide⟩
  · rw [step_of_runPass env s s1 hlt hrp, afterEval_sat env s1 hev]
  · unfold pyReplaceChar
    exact List.get?_map _ _ _

/-- Witness for C10 at a concrete satisfied run. -/
theorem satisfied_branch_resets_witness :
    step envYes (initState [Json.str ("q".data)]) =
      some (SessionState.mk false [] [Json.str ("q".data)] 0) :=
  (satisfied_branch_resets envYes (initState [Json.str ("q".data)])
    (SessionState.mk true
      [SearchResult.mk (Json.str ("q".data)) ("i1".data) ("out".data)]
      [Json.str ("q".data)] 1)
    (by decide) (by decide) (by decide)).1
